import Mathlib

/-!
Shallow embedding of `src/main.py` (MieuxVoter/progress-cards): the card
generation-and-cache subsystem.  Pure drawing is modelled as a command list on
an abstract cairo context, the Firestore record store as an abstract lookup
function, and the `cards/` directory as a list of directory entries.  Machine
arithmetic: Python ints are `ℤ`/`ℕ`, Python float division of ints is exact
`ℚ` division (the quantities involved — counts divided by 149, percentages —
are far below any double rounding threshold, so `ℚ` is a faithful model of the
float values the program computes).
-/

set_option linter.unusedVariables false

/-! ## Python numeric conventions -/

/-- Python `int(x)` on a real value: truncation toward zero.  On a rational
`q` in lowest terms with positive denominator this is `q.num.tdiv q.den`. -/
def pyInt (q : ℚ) : ℤ := q.num.tdiv q.den

/-- Python `round(x)` (banker's rounding, half to even), used by `draw_card`
for `round(center * size)`. -/
def pyRound (q : ℚ) : ℤ :=
  let f := ⌊q⌋
  let r := q - f
  if r < 1/2 then f
  else if 1/2 < r then f + 1
  else if f % 2 = 0 then f else f + 1

/-- Python `str.title()`, restricted to ASCII: the first letter of each
alphabetic run is uppercased, the rest lowercased, other characters kept. -/
def pyTitle (s : String) : String :=
  let step : (Bool × List Char) → Char → (Bool × List Char) := fun acc c =>
    if c.isAlpha then (true, acc.2 ++ [if acc.1 then c.toLower else c.toUpper])
    else (false, acc.2 ++ [c])
  String.mk (s.data.foldl step (false, [])).2

/-! ## CardRenderer: the cairo drawing pipeline of `draw_card`

A cairo context is modelled by the state the source actually touches: the
ordered list of drawing commands already emitted (z-order), the current
source pattern, font size, font face and line width, plus the abstract font
metric function behind `ctx.text_extents` (cairo computes it from the loaded
font; the model takes it as a parameter).  Angles of arcs are recorded in
units of π radians: the source writes `-math.pi / 2` and
`math.pi * 2 * progress - math.pi / 2`, recorded here as `-(1/2)` and
`2 * progress - 1/2`. -/

/-- An rgb colour triple, each channel a rational in place of a float. -/
abbrev Color := ℚ × ℚ × ℚ

/-- The current cairo source pattern: a plain rgb from `set_source_rgb`, or
the linear gradient `fill_rectangle` builds from one colour. -/
inductive Source
  | rgb (c : Color)
  | gradient (c : Color)
  deriving DecidableEq, Repr

/-- The six fields of `ctx.text_extents(text)` in cairo's order:
(x_bearing, y_bearing, width, height, x_advance, y_advance). -/
structure TextExtents where
  xBearing : ℚ
  yBearing : ℚ
  width : ℚ
  height : ℚ
  xAdvance : ℚ
  yAdvance : ℚ
  deriving DecidableEq, Repr

/-- One emitted drawing primitive. `strokeArc` angles are in units of π
radians, measured cairo-style from 3 o'clock increasing clockwise (the y axis
points down), so `-(1/2)` is the 12 o'clock position. -/
inductive DrawCmd
  | fillRect (x y w h : ℚ) (color : Color)
  | fillDisc (cx cy r : ℚ) (color : Color)
  | strokeArc (cx cy r a1 a2 : ℚ) (color : Color) (lineWidth : ℚ)
  | showText (s : String) (x y : ℚ) (fontSize : ℚ) (source : Source)
  deriving DecidableEq, Repr

/-- The modelled cairo context state. Initial cairo defaults: black rgb
source, font size 10, line width 2. -/
structure Ctx where
  cmds : List DrawCmd
  source : Source
  fontSize : ℚ
  fontFace : String
  lineWidth : ℚ
  extents : String → TextExtents

/-- Source `fill_rectangle(ctx, x, y, w, h, color)`: builds a linear gradient
holding `color`, draws the rectangle path and fills it.  The gradient becomes
the context's current source. -/
def fill_rectangle (ctx : Ctx) (x y w h : ℚ) (color : Color) : Ctx :=
  { ctx with source := Source.gradient color,
             cmds := ctx.cmds ++ [DrawCmd.fillRect x y w h color] }

/-- Source `text_highlight(ctx, text, x, y, highlight, offset=3)`: reads the
text extents `(_, dy, width, height, _, _)` and fills the padded rectangle
`(x - offset, y - offset + dy, width + offset + 5, height + offset)`. -/
def text_highlight (ctx : Ctx) (t : String) (x y : ℚ) (highlight : Color)
    (offset : ℚ := 3) : Ctx :=
  let e := ctx.extents t
  fill_rectangle ctx (x - offset) (y - offset + e.yBearing)
    (e.width + offset + 5) (e.height + offset) highlight

/-- Cairo `ctx.set_source_rgb`. -/
def set_source_rgb (ctx : Ctx) (c : Color) : Ctx := { ctx with source := Source.rgb c }

/-- Cairo `ctx.set_font_size`. -/
def set_font_size (ctx : Ctx) (s : ℚ) : Ctx := { ctx with fontSize := s }

/-- Cairo `ctx.select_font_face` (slant and weight are not tracked). -/
def select_font_face (ctx : Ctx) (face : String) : Ctx := { ctx with fontFace := face }

/-- Cairo `ctx.show_text`, emitting text at the current point with the
current font size and source.  The `move_to(x, y)` of the callers is folded
into the recorded position. -/
def show_text (ctx : Ctx) (t : String) (x y : ℚ) : Ctx :=
  { ctx with cmds := ctx.cmds ++ [DrawCmd.showText t x y ctx.fontSize ctx.source] }

/-- Source `text_center(ctx, text, center_x, center_y, color=None)`: optional
`set_source_rgb(color)`, then text shown at `center_x - width / 2`. -/
def text_center (ctx : Ctx) (t : String) (center_x center_y : ℚ)
    (color : Option Color := none) : Ctx :=
  let ctx1 := match color with
    | some c => set_source_rgb ctx c
    | none => ctx
  let e := ctx1.extents t
  show_text ctx1 t (center_x - e.width / 2) center_y

/-- Source `text(ctx, text, x, y, highlight=None, color=None)`: optional
highlight rectangle behind the text, optional `set_source_rgb(color)`, then
`move_to` and `show_text`.  (The trailing `ctx.stroke()` strokes an empty
path and is a no-op.)  Callers pass `str(text)` already applied. -/
def text (ctx : Ctx) (t : String) (x y : ℚ)
    (highlight : Option Color := none) (color : Option Color := none) : Ctx :=
  let ctx1 := match highlight with
    | some hl => text_highlight ctx t x y hl
    | none => ctx
  let ctx2 := match color with
    | some c => set_source_rgb ctx1 c
    | none => ctx1
  show_text ctx2 t x y

/-- Source `draw_progress(ctx, progress, progress_center, progress_radius,
fill=(0,0,0), line_color=(1,1,1))`: a full white disc (`arc` over `0..2π`,
closed and filled), then a stroked arc of radius `progress_radius - 7` from
`-π/2` sweeping to `2π·progress - π/2`, line width 5, coloured `fill`.
`line_color` is accepted and unused, exactly as in the source.  Angles are
recorded in units of π radians. -/
def draw_progress (ctx : Ctx) (progress : ℚ) (progress_center : ℚ × ℚ)
    (progress_radius : ℚ) (fill : Color := (0, 0, 0))
    (line_color : Color := (1, 1, 1)) : Ctx :=
  let ctx1 := { ctx with
    source := Source.rgb (1, 1, 1), lineWidth := 5,
    cmds := ctx.cmds ++
      [DrawCmd.fillDisc progress_center.1 progress_center.2 progress_radius (1, 1, 1)] }
  { ctx1 with
    source := Source.rgb fill,
    cmds := ctx1.cmds ++
      [DrawCmd.strokeArc progress_center.1 progress_center.2 (progress_radius - 7)
        (-(1/2)) (2 * progress - 1/2) fill 5] }

/-- Source `draw_card(name, progress, filename, image_size=(600, 315),
rgb=(0.011, 0.701, 0.498), progress_center=(0.80, 0.45),
progress_radius=80)`, returning the emitted command list.  The final
`surface.write_to_png(filename)` is a filesystem effect modelled at the
service layer (`get_card`); `extents` is the abstract font metric function
(model parameter, defaulted to zero metrics). -/
def draw_card (name : String) (progress : ℚ) (filename : String)
    (image_size : ℚ × ℚ := (600, 315))
    (rgb : Color := (0.011, 0.701, 0.498))
    (progress_center : ℚ × ℚ := (0.80, 0.45))
    (progress_radius : ℚ := 80)
    (extents : String → TextExtents := fun _ => ⟨0, 0, 0, 0, 0, 0⟩) : List DrawCmd :=
  let dark_green : Color := (0, 0.56, 0.39)
  let pc : ℚ × ℚ := ((pyRound (progress_center.1 * image_size.1) : ℚ),
                     (pyRound (progress_center.2 * image_size.2) : ℚ))
  let ctx : Ctx := { cmds := [], source := Source.rgb (0, 0, 0), fontSize := 10,
                     fontFace := "", lineWidth := 2, extents := extents }
  let ctx := fill_rectangle ctx 0 0 image_size.1 image_size.2 rgb
  let ctx := select_font_face ctx "Noto Sans"
  let ctx := draw_progress ctx progress pc progress_radius rgb (1, 1, 1)
  let ctx := set_font_size ctx 45
  let ctx := set_source_rgb ctx rgb
  let ctx := text ctx (toString (pyInt (progress * 100))) (pc.1 - 40) (pc.2 + 7)
  let ctx := set_font_size ctx 35
  let ctx := text ctx " %" pc.1 (pc.2 + 7)
  let start : ℚ := 90
  let jump : ℚ := 55
  let ctx := text ctx (pyTitle name) 20 start (some dark_green) (some (1, 1, 1))
  let ctx := text ctx "a voté pour le climat" 20 (start + jump)
    (some (0, 0.56, 0.39)) (some (1, 1, 1))
  let ctx := text ctx "Pourquoi pas vous ?" 20 (start + jump * 2)
    (some (0, 0.56, 0.39)) (some (1, 1, 1))
  let ctx := set_source_rgb ctx (0, 0, 0)
  let x := image_size.1 / 2
  let y := image_size.2 - 15
  let ctx := text_center ctx "www.VoterPourLeClimat.fr" x y (some (1, 1, 1))
  ctx.cmds

/-! ## ProgressFetcher: `fetch_info` over the Firestore boundary -/

/-- The module constant `COLLECTION_NAMES` (a tuple in the source). -/
def COLLECTION_NAMES : List String :=
  ["constitution", "seNourrir", "seLoger", "seDeplacer", "consommer", "produire"]

/-- A Firestore document rendered `to_dict()`: a finite string-keyed mapping,
modelled as an association list (the callers of the model supply duplicate-free
ones, as a Python dict guarantees).  `len(doc)` is the list length. -/
abbrev Doc := List (String × String)

/-- The record-store boundary `get_document(collection, user_id)`:
`client.collection(c).document(uid).get().to_dict()`, `none` when the
document is absent. -/
abbrev Firestore := String → String → Option Doc

/-- The exceptions `fetch_info` can raise: `DoesNotExistError` when the user
document is absent, and Python's `KeyError` from `user["name"]` when the user
document lacks a `name` field (the latter is not caught by `get_card`). -/
inductive FetchError
  | doesNotExist
  | keyError
  deriving DecidableEq, Repr

/-- Source `fetch_info(uid, collection_names=COLLECTION_NAMES,
num_proposals=149)`: raises `DoesNotExistError` when the user document is
absent, otherwise reads `user["name"]` and sums `len(doc)` over the category
collections whose document for `uid` is present, and returns
`(name, counter / num_proposals)`.  The global `firestore.client()` is the
explicit `client` parameter. -/
def fetch_info (client : Firestore) (uid : String)
    (collection_names : List String := COLLECTION_NAMES)
    (num_proposals : ℕ := 149) : Except FetchError (String × ℚ) :=
  match client "user" uid with
  | none => Except.error FetchError.doesNotExist
  | some user =>
    match user.lookup "name" with
    | none => Except.error FetchError.keyError
    | some name =>
      let counter : ℕ := (collection_names.map (fun collection_name =>
        match client collection_name uid with
        | none => 0
        | some doc => doc.length)).sum
      Except.ok (name, (counter : ℚ) / (num_proposals : ℚ))

/-! ## CardCache: the `cards/` directory

A directory entry is the file `cards/{uid}.{ts}.png` with filesystem creation
time `ctime`: the filename is determined by `(uid, ts)`, so two entries are
the same file exactly when those two fields agree, and a real directory
listing never holds two entries with the same `(uid, ts)` (the `DirOk`
invariant below).  `get_card` validates `uid.isalnum()` before any cache
operation, so the uids reaching the cache contain no dot and no slash; for
such uids the glob pattern `cards/{uid}.*.png` matches exactly the entries
whose uid component equals `uid`, which is how `globCards` models it. -/

/-- One file of the `cards/` directory. -/
structure CardFile where
  uid : String
  ts : ℤ
  ctime : ℤ
  deriving DecidableEq, Repr

/-- The basename `{uid}.{timestamp}.png` of a directory entry. -/
def CardFile.fname (f : CardFile) : String := f.uid ++ "." ++ toString f.ts ++ ".png"

/-- The listing `glob.glob(f"cards/{uid}.*.png")` for an alphanumeric `uid`. -/
def globCards (cards : List CardFile) (uid : String) : List CardFile :=
  cards.filter (fun f => f.uid == uid)

/-- A real directory listing: no two entries share a path. -/
def DirOk (cards : List CardFile) : Prop :=
  (cards.map (fun f => (f.uid, f.ts))).Nodup

/-- The `AssertionError("Please clean up")` of `find_card`. -/
inductive CacheError
  | cleanUpAssert
  deriving DecidableEq, Repr

/-- Source `find_card(uid)`: globs `cards/{uid}.*.png`; zero matches return
`None`, more than one fail the `assert len(filenames) == 1, "Please clean
up"`, one match returns the basename (`filenames[0].split("/")[-1]`) — here
the entry itself, whose basename is `CardFile.fname`. -/
def find_card (cards : List CardFile) (uid : String) :
    Except CacheError (Option CardFile) :=
  let filenames := globCards cards uid
  match filenames with
  | [] => Except.ok none
  | [f] => Except.ok (some f)
  | _ => Except.error CacheError.cleanUpAssert

/-- Source `is_card_uptodate(filename, max_timestamp)`: `False` when no card
was found, else `int(filename.split(".")[1]) > max_timestamp` — the embedded
timestamp is the `ts` field the basename `{uid}.{ts}.png` carries. -/
def is_card_uptodate (found : Option CardFile) (max_timestamp : ℤ) : Bool :=
  match found with
  | none => false
  | some f => f.ts > max_timestamp

/-- Source `is_valid_uid(uid)`: Python `uid.isalnum()`, modelled for ASCII
strings: nonempty and every character alphanumeric. -/
def is_valid_uid (uid : String) : Bool :=
  !uid.data.isEmpty && uid.data.all Char.isAlphanum

/-- The `ValueError: max() arg is an empty sequence` that
`max(filenames, key=os.path.getctime)` raises on an empty glob. -/
inductive CleanError
  | emptyMax
  deriving DecidableEq, Repr

/-- Python `max(filenames, key=os.path.getctime)`: the first entry of maximal
creation time (`max` keeps the earlier element on ties), `none` on `[]`. -/
def maxByCtime : List CardFile → Option CardFile
  | [] => none
  | f :: fs => some (fs.foldl (fun best g => if g.ctime > best.ctime then g else best) f)

/-- Source `clean_card(uid)`: globs the uid's card files, takes the one with
the greatest `os.path.getctime`, and removes every other glob match. -/
def clean_card (cards : List CardFile) (uid : String) :
    Except CleanError (List CardFile) :=
  let filenames := globCards cards uid
  match maxByCtime filenames with
  | none => Except.error CleanError.emptyMax
  | some latest_file =>
    Except.ok (cards.filter (fun f => !(f.uid == uid) || f == latest_file))

/-- Writing `cards/{uid}.{ts}.png` (the `surface.write_to_png` of
`draw_card`): creates the path or overwrites the entry with the same
`(uid, ts)`. -/
def write_card (cards : List CardFile) (f : CardFile) : List CardFile :=
  f :: cards.filter (fun g => !(g.uid == f.uid && g.ts == f.ts))

/-! ## CardService: `get_card` -/

/-- What a `get_card` call can come to: the HTTP 400 `("Invalid uid", 400)`
for an invalid uid, the returned `{"filename": ...}` dict (whose value is the
found basename, the new basename, or `"default.jpg"`), or one of the
uncaught exceptions. -/
inductive GetCardOutcome
  | invalidUid
  | ok (filename : Option String)
  | cacheAssert
  | cleanEmpty
  | keyError
  deriving DecidableEq, Repr

/-- The externally visible operations a call performs, in order: the remote
fetch, the cairo render, the png write, the cleanup pass. -/
inductive Effect
  | fetch
  | render
  | write
  | clean
  deriving DecidableEq, Repr

/-- Result of one `get_card` call: its outcome, the `cards/` directory it
leaves behind, and the effects it performed. -/
structure GetCardRun where
  outcome : GetCardOutcome
  cards : List CardFile
  effects : List Effect
  deriving DecidableEq, Repr

/-- Source `get_card(uid, refresh=False)`: reject an invalid uid with a 400;
look the card up (`find_card`); if `refresh` is set or the card is not up to
date against `timestamp - 3600`, fetch, render to
`cards/{uid}.{timestamp}.png` and clean up, falling back to
`filename = "default.jpg"` on `DoesNotExistError`; return
`{"filename": filename}`.  `now` is `int(time.time())` at the call, and a
written file's creation time is the wall clock `now` of the write. -/
def get_card (client : Firestore) (now : ℤ) (cards : List CardFile) (uid : String)
    (refresh : Bool := false) : GetCardRun :=
  if !is_valid_uid uid then
    { outcome := GetCardOutcome.invalidUid, cards := cards, effects := [] }
  else
    let timestamp := now
    match find_card cards uid with
    | Except.error _ =>
      { outcome := GetCardOutcome.cacheAssert, cards := cards, effects := [] }
    | Except.ok found =>
      let filename := found.map CardFile.fname
      if refresh || !is_card_uptodate found (timestamp - 3600) then
        match fetch_info client uid with
        | Except.error FetchError.doesNotExist =>
          { outcome := GetCardOutcome.ok (some "default.jpg"), cards := cards,
            effects := [Effect.fetch] }
        | Except.error FetchError.keyError =>
          { outcome := GetCardOutcome.keyError, cards := cards,
            effects := [Effect.fetch] }
        | Except.ok (name, progress) =>
          let newFile : CardFile := { uid := uid, ts := timestamp, ctime := now }
          let rendered := draw_card name progress newFile.fname
          let cards1 := write_card cards newFile
          match clean_card cards1 uid with
          | Except.error _ =>
            { outcome := GetCardOutcome.cleanEmpty, cards := cards1,
              effects := [Effect.fetch, Effect.render, Effect.write] }
          | Except.ok cards2 =>
            { outcome := GetCardOutcome.ok (some newFile.fname), cards := cards2,
              effects := [Effect.fetch, Effect.render, Effect.write, Effect.clean] }
      else
        { outcome := GetCardOutcome.ok filename, cards := cards, effects := [] }

/-- A sequence of completed-in-order `get_card` calls for one uid, each given
as `(now, refresh)`, threading the `cards/` directory through. -/
def run_calls (client : Firestore) (uid : String) :
    List CardFile → List (ℤ × Bool) → List CardFile
  | cards, [] => cards
  | cards, (t, r) :: rest =>
    run_calls client uid (get_card client t cards uid r).cards rest

/-- The record store of the spec's worked example: user `alice` exists with
display name `Alice`, her `constitution` document holds 3 answered fields,
her `seLoger` (housing) document 5, and every other category document —
`seNourrir` (feeding) among them — is absent. -/
def demoStore : Firestore := fun collection uid =>
  if collection = "user" ∧ uid = "alice" then some [("name", "Alice")]
  else if collection = "constitution" ∧ uid = "alice" then
    some [("c1", ""), ("c2", ""), ("c3", "")]
  else if collection = "seLoger" ∧ uid = "alice" then
    some [("h1", ""), ("h2", ""), ("h3", ""), ("h4", ""), ("h5", "")]
  else none

/-! ## Arithmetic helpers -/

/-- Truncation toward zero agrees with the floor on nonnegative rationals. -/
theorem pyInt_eq_floor {q : ℚ} (h : 0 ≤ q) : pyInt q = ⌊q⌋ := by
  rw [Rat.floor_def]
  exact Int.tdiv_eq_ediv (Rat.num_nonneg.mpr h) (by positivity)

/-- Truncation toward zero agrees with the ceiling on nonpositive rationals. -/
theorem pyInt_eq_ceil {q : ℚ} (h : q ≤ 0) : pyInt q = ⌈q⌉ := by
  have h1 : (0 : ℚ) ≤ -q := by linarith
  have h2 : pyInt (-q) = ⌊-q⌋ := pyInt_eq_floor h1
  have h3 : pyInt (-q) = -pyInt q := by
    unfold pyInt
    rw [Rat.neg_num, Rat.neg_den, Int.neg_tdiv]
  have h4 : ⌊-q⌋ = -⌈q⌉ := Int.floor_neg
  omega

/-- The percentage drawn for the spec's worked example: `int(8/149*100)`. -/
theorem pyInt_8_149 : pyInt ((8 : ℚ) / 149 * 100) = 5 := by
  rw [pyInt_eq_floor (by norm_num), Int.floor_eq_iff]
  norm_num

/-- The percentage drawn for an over-range ratio: `int(1.3*100)`. -/
theorem pyInt_13_10 : pyInt ((13 : ℚ) / 10 * 100) = 130 := by
  rw [pyInt_eq_floor (by norm_num), Int.floor_eq_iff]
  norm_num

/-! ## Claim C6 — the category collection list -/

/-- C6 counterexample: `COLLECTION_NAMES` is not the list of English names
the claim states. -/
theorem C6_claim_counterexample :
    COLLECTION_NAMES ≠
      ["constitution", "feeding", "housing", "transport", "consumption", "production"] := by
  decide

/-- C6 (amended): the fixed ordered list of category collections consulted by
`fetch_info` (its default `collection_names`) is exactly `constitution`,
`seNourrir`, `seLoger`, `seDeplacer`, `consommer`, `produire`, in that order —
the source keeps the French identifiers; the claim's English names are
translations of the last five. -/
theorem C6_collection_names_amended :
    COLLECTION_NAMES =
      ["constitution", "seNourrir", "seLoger", "seDeplacer", "consommer", "produire"] := by
  rfl

/-! ## Claim C7 — find_card on zero, one, many matches -/

/-- C7: `find_card` returns `none` on zero glob matches, the single match when
there is exactly one, and fails with the `"Please clean up"` assertion instead
of silently picking one when two or more files match. -/
theorem C7_find_card_matches :
    ∀ (cards : List CardFile) (uid : String),
      (globCards cards uid = [] → find_card cards uid = Except.ok none) ∧
      (∀ f, globCards cards uid = [f] → find_card cards uid = Except.ok (some f)) ∧
      (2 ≤ (globCards cards uid).length →
        find_card cards uid = Except.error CacheError.cleanUpAssert) := by
  intro cards uid
  refine ⟨fun h => by simp [find_card, h], fun f h => by simp [find_card, h], fun h => ?_⟩
  unfold find_card
  match hg : globCards cards uid with
  | [] => rw [hg] at h; simp at h
  | [f] => rw [hg] at h; simp at h
  | a :: b :: t => simp

/-! ## Claim C8 — uid validation happens before everything else -/

/-- C8: a purely alphanumeric uid such as `"abc123"` passes validation;
`"abc-123"`, `"../etc"` and `""` fail it; and for every uid failing
validation, `get_card` returns the 400 client error with the directory
untouched and no fetch, render or cache effect. -/
theorem C8_uid_validation :
    is_valid_uid "abc123" = true ∧
    is_valid_uid "abc-123" = false ∧
    is_valid_uid "../etc" = false ∧
    is_valid_uid "" = false ∧
    ∀ (uid : String) (client : Firestore) (now : ℤ) (cards : List CardFile)
      (refresh : Bool),
      is_valid_uid uid = false →
      get_card client now cards uid refresh =
        { outcome := GetCardOutcome.invalidUid, cards := cards, effects := [] } := by
  refine ⟨by decide, by decide, by decide, by decide, ?_⟩
  intro uid client now cards refresh h
  simp [get_card, h]

/-! ## Claim C4 — the staleness boundary -/

/-- C4 counterexample: a card whose embedded timestamp equals the cutoff
`now - max_age` is reported stale by the code, while the claim (stale exactly
when absent or strictly older than the cutoff) predicts it fresh. -/
theorem C4_claim_counterexample :
    ¬ (is_card_uptodate (some { uid := "a", ts := 1000, ctime := 1000 }) 1000 = false ↔
        ((some { uid := "a", ts := 1000, ctime := 1000 } : Option CardFile) = none ∨
          (1000 : ℤ) < 1000)) := by
  decide

/-- C4 (amended): the staleness check reports the card stale exactly when no
card exists or the timestamp embedded in its filename is older than **or
equal to** `now - max_age`; a card is fresh exactly when its timestamp is
strictly newer than `now - max_age`. -/
theorem C4_staleness_amended :
    ∀ (found : Option CardFile) (max_timestamp : ℤ),
      (is_card_uptodate found max_timestamp = false ↔
        found = none ∨ ∃ f, found = some f ∧ f.ts ≤ max_timestamp) ∧
      (is_card_uptodate found max_timestamp = true ↔
        ∃ f, found = some f ∧ max_timestamp < f.ts) := by
  intro found m
  cases found with
  | none => simp [is_card_uptodate]
  | some f =>
    constructor
    · simp only [is_card_uptodate, decide_eq_false_iff_not, not_lt, Option.some.injEq,
        reduceCtorEq, false_or]
      constructor
      · intro h
        exact ⟨f, rfl, by omega⟩
      · rintro ⟨g, hg, hts⟩
        cases hg
        omega
    · simp [is_card_uptodate]

/-! ## Cache lemmas -/

/-- The fold inside `maxByCtime` returns an element of `acc :: fs` whose
ctime dominates `acc` and every element of `fs`. -/
theorem maxByCtime_foldl_spec (fs : List CardFile) :
    ∀ acc : CardFile,
      (fs.foldl (fun best g => if g.ctime > best.ctime then g else best) acc) ∈ acc :: fs ∧
      acc.ctime ≤ (fs.foldl (fun best g => if g.ctime > best.ctime then g else best) acc).ctime ∧
      ∀ g ∈ fs,
        g.ctime ≤ (fs.foldl (fun best g => if g.ctime > best.ctime then g else best) acc).ctime := by
  induction fs with
  | nil => intro acc; simp
  | cons g gs ih =>
    intro acc
    obtain ⟨hmem, hacc, hall⟩ := ih (if g.ctime > acc.ctime then g else acc)
    refine ⟨?_, ?_, ?_⟩
    · simp only [List.foldl_cons]
      rcases List.mem_cons.mp hmem with h | h
      · rw [h]
        by_cases hc : g.ctime > acc.ctime
        · simp [hc]
        · simp [hc]
      · simp [List.mem_cons]
        tauto
    · simp only [List.foldl_cons]
      refine le_trans ?_ hacc
      by_cases hc : g.ctime > acc.ctime
      · simp [hc]
        omega
      · simp [hc]
    · intro x hx
      simp only [List.foldl_cons]
      rcases List.mem_cons.mp hx with h | h
      · subst h
        refine le_trans ?_ hacc
        by_cases hc : x.ctime > acc.ctime
        · simp [hc]
        · simp [hc]
          omega
      · exact hall x h

/-- `maxByCtime` of a nonempty listing returns a member of maximal ctime. -/
theorem maxByCtime_spec {l : List CardFile} {f : CardFile} (h : maxByCtime l = some f) :
    f ∈ l ∧ ∀ g ∈ l, g.ctime ≤ f.ctime := by
  match l with
  | [] => simp [maxByCtime] at h
  | a :: as =>
    simp only [maxByCtime, Option.some.injEq] at h
    obtain ⟨hmem, hacc, hall⟩ := maxByCtime_foldl_spec as a
    constructor
    · rw [← h]
      exact hmem
    · intro g hg
      rcases List.mem_cons.mp hg with hga | hgas
      · subst hga
        rw [h] at hacc
        exact hacc
      · rw [h] at hall
        exact hall g hgas

/-- A sublist of a consistent directory listing is consistent. -/
theorem dirOk_of_sublist {l1 l2 : List CardFile} (h : l1.Sublist l2) (h2 : DirOk l2) :
    DirOk l1 :=
  List.Nodup.sublist (List.Sublist.map (fun f => (f.uid, f.ts)) h) h2

/-- Filtering preserves directory consistency. -/
theorem dirOk_filter {cards : List CardFile} (p : CardFile → Bool) (h : DirOk cards) :
    DirOk (cards.filter p) :=
  dirOk_of_sublist (List.filter_sublist cards) h

/-- Overwriting the path `{uid}.{ts}.png` preserves directory consistency. -/
theorem dirOk_write {cards : List CardFile} (h : DirOk cards) (f : CardFile) :
    DirOk (write_card cards f) := by
  unfold write_card DirOk
  rw [List.map_cons, List.nodup_cons]
  constructor
  · intro hmem
    obtain ⟨g, hg, hkey⟩ := List.mem_map.mp hmem
    obtain ⟨hgc, hp⟩ := List.mem_filter.mp hg
    have h1 : g.uid = f.uid := congrArg Prod.fst hkey
    have h2 : g.ts = f.ts := congrArg Prod.snd hkey
    rw [h1, h2] at hp
    simp at hp
  · exact dirOk_filter _ h

/-- In a duplicate-free listing, filtering for one member keeps exactly it. -/
theorem filter_eq_single {l : List CardFile} {a : CardFile} (hn : l.Nodup) (ha : a ∈ l) :
    l.filter (fun f => f == a) = [a] := by
  rw [List.filter_beq, List.count_eq_one_of_mem hn ha]
  rfl

/-- On a consistent directory with at least one file for `uid`, `clean_card`
succeeds and keeps exactly the glob match `maxByCtime` selected. -/
theorem clean_card_glob {cards : List CardFile} {uid : String} {latest : CardFile}
    (hd : DirOk cards) (hmax : maxByCtime (globCards cards uid) = some latest) :
    clean_card cards uid =
      Except.ok (cards.filter (fun f => !(f.uid == uid) || f == latest)) ∧
    globCards (cards.filter (fun f => !(f.uid == uid) || f == latest)) uid = [latest] := by
  obtain ⟨hmem, hmaxall⟩ := maxByCtime_spec hmax
  obtain ⟨hlc, hluid⟩ := List.mem_filter.mp hmem
  constructor
  · simp only [clean_card, hmax]
  · unfold globCards
    rw [List.filter_filter]
    have hcong : ∀ f ∈ cards,
        ((f.uid == uid) && (!(f.uid == uid) || f == latest)) = (f == latest) := by
      intro f hf
      by_cases hu : f.uid = uid
      · simp [hu]
      · have h1 : (f.uid == uid) = false := beq_eq_false_iff_ne.mpr hu
        have h2 : (f == latest) = false := by
          refine beq_eq_false_iff_ne.mpr ?_
          intro hfl
          subst hfl
          exact hu (eq_of_beq hluid)
        simp [h1, h2]
    rw [List.filter_congr hcong]
    exact filter_eq_single (List.Nodup.of_map _ hd) hlc

/-! ## Claim C10 — clean_card's nonempty precondition and its unreachability -/

/-- In the render path, `clean_card` runs right after the new file was
written, so its glob is nonempty and it succeeds. -/
theorem clean_card_after_write (cards : List CardFile) (uid : String) (ts ct : ℤ) :
    ∃ cards2,
      clean_card (write_card cards { uid := uid, ts := ts, ctime := ct }) uid =
        Except.ok cards2 := by
  unfold clean_card write_card globCards
  rw [List.filter_cons_of_pos (by simp)]
  simp only [maxByCtime]
  exact ⟨_, rfl⟩

/-- C10: `clean_card` fails (Python `max` of an empty sequence) exactly when
no artifact file for the uid exists, succeeds whenever at least one exists,
and the failing branch is unreachable through `get_card`, which calls
`clean_card` only immediately after writing the uid's new file. -/
theorem C10_clean_card_precondition :
    (∀ (cards : List CardFile) (uid : String),
      globCards cards uid = [] → clean_card cards uid = Except.error CleanError.emptyMax) ∧
    (∀ (cards : List CardFile) (uid : String),
      globCards cards uid ≠ [] → ∃ cards2, clean_card cards uid = Except.ok cards2) ∧
    (∀ (client : Firestore) (now : ℤ) (cards : List CardFile) (uid : String)
      (refresh : Bool),
      (get_card client now cards uid refresh).outcome ≠ GetCardOutcome.cleanEmpty) := by
  refine ⟨?_, ?_, ?_⟩
  · intro cards uid h
    simp [clean_card, h, maxByCtime]
  · intro cards uid h
    match hg : globCards cards uid with
    | [] => exact absurd hg h
    | a :: as =>
      simp only [clean_card, hg, maxByCtime]
      exact ⟨_, rfl⟩
  · intro client now cards uid r
    by_cases hv : is_valid_uid uid
    case neg =>
      simp [get_card, hv]
    case pos =>
      rcases hfc : find_card cards uid with e | found
      · simp [get_card, hv, hfc]
      · by_cases hfresh : (r || !is_card_uptodate found (now - 3600)) = true
        · rcases hfi : fetch_info client uid with e | np
          · cases e
            · simp [get_card, hv, hfc, hfresh, hfi]
            · simp [get_card, hv, hfc, hfresh, hfi]
          · obtain ⟨c2, hc⟩ := clean_card_after_write cards uid now now
            simp [get_card, hv, hfc, hfresh, hfi, hc]
        · simp only [Bool.not_eq_true] at hfresh
          simp [get_card, hv, hfc, hfresh]

/-! ## Renderer lemmas -/

/-- The progress-ring center x: `round(0.80 * 600) == 480`. -/
theorem pyRound_center_x : pyRound ((0.80 : ℚ) * 600) = 480 := by
  have h : ((0.80 : ℚ) * 600) = 480 := by norm_num
  rw [h]
  have hf : ⌊(480 : ℚ)⌋ = 480 := by
    rw [Int.floor_eq_iff]
    norm_num
  simp only [pyRound, hf]
  norm_num

/-- The progress-ring center y: `round(0.45 * 315) == round(141.75) == 142`. -/
theorem pyRound_center_y : pyRound ((0.45 : ℚ) * 315) = 142 := by
  have h : ((0.45 : ℚ) * 315) = 567 / 4 := by norm_num
  rw [h]
  have hf : ⌊(567 / 4 : ℚ)⌋ = 141 := by
    rw [Int.floor_eq_iff]
    norm_num
  simp only [pyRound, hf]
  norm_num

/-- The full command list `draw_card` emits at the default canvas, colours,
center and radius, in z-order.  Positions are resolved: the ring center is
`(480, 142)`, the percentage text sits at `(440, 149)` in font 45, the `" %"`
glyph at `(480, 149)` in font 35, and the stroked progress arc has radius 73
and runs from angle `-π/2` to `π·(2·progress - 1/2)`. -/
theorem draw_card_cmds (name : String) (progress : ℚ) (filename : String)
    (ext : String → TextExtents) :
    draw_card name progress filename (600, 315) (0.011, 0.701, 0.498) (0.80, 0.45) 80 ext =
      [DrawCmd.fillRect 0 0 600 315 (0.011, 0.701, 0.498),
       DrawCmd.fillDisc 480 142 80 (1, 1, 1),
       DrawCmd.strokeArc 480 142 73 (-(1/2)) (2 * progress - 1/2) (0.011, 0.701, 0.498) 5,
       DrawCmd.showText (toString (pyInt (progress * 100))) 440 149 45
         (Source.rgb (0.011, 0.701, 0.498)),
       DrawCmd.showText " %" 480 149 35 (Source.rgb (0.011, 0.701, 0.498)),
       DrawCmd.fillRect 17 (87 + (ext (pyTitle name)).yBearing)
         ((ext (pyTitle name)).width + 8) ((ext (pyTitle name)).height + 3) (0, 0.56, 0.39),
       DrawCmd.showText (pyTitle name) 20 90 35 (Source.rgb (1, 1, 1)),
       DrawCmd.fillRect 17 (142 + (ext "a voté pour le climat").yBearing)
         ((ext "a voté pour le climat").width + 8)
         ((ext "a voté pour le climat").height + 3) (0, 0.56, 0.39),
       DrawCmd.showText "a voté pour le climat" 20 145 35 (Source.rgb (1, 1, 1)),
       DrawCmd.fillRect 17 (197 + (ext "Pourquoi pas vous ?").yBearing)
         ((ext "Pourquoi pas vous ?").width + 8)
         ((ext "Pourquoi pas vous ?").height + 3) (0, 0.56, 0.39),
       DrawCmd.showText "Pourquoi pas vous ?" 20 200 35 (Source.rgb (1, 1, 1)),
       DrawCmd.showText "www.VoterPourLeClimat.fr"
         (300 - (ext "www.VoterPourLeClimat.fr").width / 2) 300 35
         (Source.rgb (1, 1, 1))] := by
  simp only [draw_card, fill_rectangle, select_font_face, draw_progress, set_font_size,
    set_source_rgb, text, text_highlight, text_center, show_text, pyRound_center_x,
    pyRound_center_y]
  norm_num
  refine ⟨by ring, by ring, by ring⟩

/-! ## Claim C9 — render on out-of-range ratios -/

/-- C9 counterexample: at `progress = -1/200` the drawn percentage text is
`str(int(-0.5)) == "0"` (Python `int()` truncates toward zero), not the
`str(floor(-0.5)) == "-1"` the claim's `floor` wording predicts. -/
theorem C9_claim_counterexample :
    (draw_card "x" (-(1/200)) "x.png" (600, 315) (0.011, 0.701, 0.498) (0.80, 0.45) 80
        (fun _ => ⟨0, 0, 0, 0, 0, 0⟩))[3]? =
      some (DrawCmd.showText "0" 440 149 45 (Source.rgb (0.011, 0.701, 0.498))) ∧
    toString ⌊(-(1/200) : ℚ) * 100⌋ = "-1" ∧
    ("0" : String) ≠ "-1" := by
  refine ⟨?_, ?_, by decide⟩
  · have hp : pyInt ((-(1/200) : ℚ) * 100) = 0 := by
      rw [pyInt_eq_ceil (by norm_num), Int.ceil_eq_iff]
      norm_num
    rw [draw_card_cmds, hp]
    rfl
  · have hf : ⌊(-(1/200) : ℚ) * 100⌋ = -1 := by
      rw [Int.floor_eq_iff]
      norm_num
    rw [hf]
    rfl

/-- C9 (amended): `draw_card` is total — no ratio is rejected or clamped —
and for every name and progress ratio the in-ring percentage text is the
integer truncation toward zero of `progress·100` (`str(int(progress*100))`,
equal to the floor whenever the ratio is nonnegative) in font 45, followed by
the smaller `" %"` glyph in font 35, and the progress arc starts at the
12 o'clock angle `-π/2` and ends at `π·(2·progress - 1/2)`, a clockwise sweep
of `2π·progress`, i.e. `progress · 360°`; at `progress = 1.3` the drawn label
is `"130"` with an arc sweep of 1.3 turns. -/
theorem C9_render_amended :
    ∀ (name : String) (progress : ℚ) (filename : String) (ext : String → TextExtents),
      (draw_card name progress filename (600, 315) (0.011, 0.701, 0.498) (0.80, 0.45) 80
          ext)[3]? =
        some (DrawCmd.showText (toString (pyInt (progress * 100))) 440 149 45
          (Source.rgb (0.011, 0.701, 0.498))) ∧
      (draw_card name progress filename (600, 315) (0.011, 0.701, 0.498) (0.80, 0.45) 80
          ext)[4]? =
        some (DrawCmd.showText " %" 480 149 35 (Source.rgb (0.011, 0.701, 0.498))) ∧
      (draw_card name progress filename (600, 315) (0.011, 0.701, 0.498) (0.80, 0.45) 80
          ext)[2]? =
        some (DrawCmd.strokeArc 480 142 73 (-(1/2)) (2 * progress - 1/2)
          (0.011, 0.701, 0.498) 5) ∧
      ((2 * progress - 1/2) - (-(1/2)) = 2 * progress) ∧
      (0 ≤ progress → pyInt (progress * 100) = ⌊progress * 100⌋) ∧
      toString (pyInt ((13 : ℚ) / 10 * 100)) = "130" := by
  intro name progress filename ext
  refine ⟨?_, ?_, ?_, by ring, ?_, ?_⟩
  · rw [draw_card_cmds]
    rfl
  · rw [draw_card_cmds]
    rfl
  · rw [draw_card_cmds]
    rfl
  · intro h
    exact pyInt_eq_floor (by positivity)
  · rw [pyInt_13_10]
    rfl

/-! ## Claim C1 — the progress ratio computed by fetch_info -/

/-- C1: for every existing user (user document present with a `name` field),
`fetch_info` returns the ratio summing, over the fixed ordered category list,
the number of keys of each present category document (an absent document
contributing zero), divided by the constant 149; on the worked example
(`constitution` 3 keys, `seNourrir` absent, `seLoger` 5 keys) the ratio is
`8/149` and the percentage text drawn on the card is `"5"`. -/
theorem C1_fetch_progress_ratio :
    ∀ (client : Firestore) (uid : String) (user : Doc) (nm : String),
      client "user" uid = some user →
      user.lookup "name" = some nm →
      fetch_info client uid = Except.ok (nm,
        (((((COLLECTION_NAMES.map (fun collection_name =>
          match client collection_name uid with
          | none => 0
          | some doc => doc.length)).sum : ℕ)) : ℚ) / 149)) ∧
      fetch_info demoStore "alice" = Except.ok ("Alice", 8 / 149) ∧
      toString (pyInt ((8 : ℚ) / 149 * 100)) = "5" ∧
      (draw_card "Alice" ((8 : ℚ) / 149) "alice.0.png" (600, 315) (0.011, 0.701, 0.498)
          (0.80, 0.45) 80 (fun _ => ⟨0, 0, 0, 0, 0, 0⟩))[3]? =
        some (DrawCmd.showText "5" 440 149 45 (Source.rgb (0.011, 0.701, 0.498))) := by
  intro client uid user nm hu hn
  refine ⟨?_, ?_, ?_, ?_⟩
  · simp only [fetch_info, hu, hn, Nat.cast_ofNat]
  · simp [fetch_info, demoStore, COLLECTION_NAMES, List.lookup]
  · rw [pyInt_8_149]
    rfl
  · rw [draw_card_cmds, pyInt_8_149]
    rfl

/-- C1 witness: the worked example itself, obtained from the theorem at the
demo store. -/
theorem C1_fetch_progress_ratio_witness :
    fetch_info demoStore "alice" = Except.ok ("Alice", 8 / 149) :=
  (C1_fetch_progress_ratio demoStore "alice" [("name", "Alice")] "Alice"
    (by decide) (by decide)).2.1

/-! ## Service lemmas -/

/-- For a user document that exists and carries a `name` field, `fetch_info`
returns the name and the counted ratio. -/
theorem fetch_info_ok {client : Firestore} {uid : String} {user : Doc} {nm : String}
    (hu : client "user" uid = some user) (hn : user.lookup "name" = some nm) :
    fetch_info client uid = Except.ok (nm,
      (((((COLLECTION_NAMES.map (fun collection_name =>
        match client collection_name uid with
        | none => 0
        | some doc => doc.length)).sum : ℕ)) : ℚ) / 149)) := by
  simp only [fetch_info, hu, hn, Nat.cast_ofNat]

/-- When `get_card` takes the render path (valid uid, lookup succeeded, cache
judged stale or refresh forced, fetch succeeded), it returns the new basename
`{uid}.{now}.png`, performs fetch, render, write and clean in order, and
leaves a consistent directory holding exactly one card file for the uid. -/
theorem get_card_renders {client : Firestore} {uid : String} {nm : String} {p : ℚ}
    {cards : List CardFile} {found : Option CardFile} {now : ℤ} {refresh : Bool}
    (hv : is_valid_uid uid = true)
    (hfc : find_card cards uid = Except.ok found)
    (hcond : (refresh || !is_card_uptodate found (now - 3600)) = true)
    (hfi : fetch_info client uid = Except.ok (nm, p))
    (hd : DirOk cards) :
    (get_card client now cards uid refresh).outcome =
      GetCardOutcome.ok (some (CardFile.fname { uid := uid, ts := now, ctime := now })) ∧
    DirOk (get_card client now cards uid refresh).cards ∧
    (∃ latest, globCards (get_card client now cards uid refresh).cards uid = [latest]) ∧
    (get_card client now cards uid refresh).effects =
      [Effect.fetch, Effect.render, Effect.write, Effect.clean] := by
  have hglob1 : ∃ rest,
      globCards (write_card cards { uid := uid, ts := now, ctime := now }) uid =
        { uid := uid, ts := now, ctime := now } :: rest := by
    unfold write_card globCards
    rw [List.filter_cons_of_pos (by simp)]
    exact ⟨_, rfl⟩
  obtain ⟨rest, hglob1⟩ := hglob1
  have hmax : ∃ latest,
      maxByCtime (globCards (write_card cards { uid := uid, ts := now, ctime := now }) uid) =
        some latest := by
    rw [hglob1]
    exact ⟨_, rfl⟩
  obtain ⟨latest, hmax⟩ := hmax
  have hd1 : DirOk (write_card cards { uid := uid, ts := now, ctime := now }) :=
    dirOk_write hd _
  obtain ⟨hcleq, hglob2⟩ := clean_card_glob hd1 hmax
  have hrun : get_card client now cards uid refresh =
      { outcome :=
          GetCardOutcome.ok (some (CardFile.fname { uid := uid, ts := now, ctime := now })),
        cards := (write_card cards { uid := uid, ts := now, ctime := now }).filter
          (fun f => !(f.uid == uid) || f == latest),
        effects := [Effect.fetch, Effect.render, Effect.write, Effect.clean] } := by
    simp [get_card, hv, hfc, hcond, hfi, hcleq]
  rw [hrun]
  exact ⟨rfl, dirOk_filter _ hd1, ⟨latest, hglob2⟩, rfl⟩

/-- One completed `get_card` call for an existing, named user on a consistent
directory with at most one card file for the uid: the call returns a
`{"filename": ...}` result and leaves a consistent directory with exactly one
card file for the uid. -/
theorem get_card_step {client : Firestore} {uid : String} {user : Doc} {nm : String}
    (hu : client "user" uid = some user) (hn : user.lookup "name" = some nm)
    (hv : is_valid_uid uid = true) {cards : List CardFile} (now : ℤ) (refresh : Bool)
    (hd : DirOk cards) (hc : (globCards cards uid).length ≤ 1) :
    (∃ fn, (get_card client now cards uid refresh).outcome = GetCardOutcome.ok fn) ∧
    DirOk (get_card client now cards uid refresh).cards ∧
    (globCards (get_card client now cards uid refresh).cards uid).length = 1 := by
  have hfi := fetch_info_ok hu hn
  cases hg : globCards cards uid with
  | nil =>
    have hfc : find_card cards uid = Except.ok none := by simp [find_card, hg]
    have hcond : (refresh || !is_card_uptodate (none : Option CardFile) (now - 3600)) = true := by
      simp [is_card_uptodate]
    obtain ⟨h1, h2, ⟨latest, h3⟩, h4⟩ := get_card_renders hv hfc hcond hfi hd
    exact ⟨⟨_, h1⟩, h2, by rw [h3]; rfl⟩
  | cons f rest =>
    cases rest with
    | cons g t =>
      rw [hg] at hc
      simp at hc
    | nil =>
      have hfc : find_card cards uid = Except.ok (some f) := by simp [find_card, hg]
      cases hcnd : (refresh || !is_card_uptodate (some f) (now - 3600)) with
      | true =>
        obtain ⟨h1, h2, ⟨latest, h3⟩, h4⟩ := get_card_renders hv hfc hcnd hfi hd
        exact ⟨⟨_, h1⟩, h2, by rw [h3]; rfl⟩
      | false =>
        have hrun : get_card client now cards uid refresh =
            { outcome := GetCardOutcome.ok (some f.fname), cards := cards,
              effects := [] } := by
          simp [get_card, hv, hfc, hcnd]
        rw [hrun]
        refine ⟨⟨_, rfl⟩, hd, ?_⟩
        simp [hg]

/-- Running any nonempty sequence of `get_card` calls for an existing, named
user from a consistent directory with at most one card file for the uid
leaves exactly one card file for the uid. -/
theorem run_calls_len {client : Firestore} {uid : String} {user : Doc} {nm : String}
    (hu : client "user" uid = some user) (hn : user.lookup "name" = some nm)
    (hv : is_valid_uid uid = true) :
    ∀ (calls : List (ℤ × Bool)) (cards : List CardFile), DirOk cards →
      (globCards cards uid).length ≤ 1 → calls ≠ [] →
      (globCards (run_calls client uid cards calls) uid).length = 1 := by
  intro calls
  induction calls with
  | nil => intro cards _ _ hne; exact absurd rfl hne
  | cons c rest ih =>
    intro cards hd hc _
    obtain ⟨t, r⟩ := c
    obtain ⟨_, hd2, hlen⟩ := get_card_step hu hn hv t r hd hc
    cases rest with
    | nil =>
      simp only [run_calls]
      exact hlen
    | cons c2 rest2 =>
      simp only [run_calls]
      exact ih _ hd2 (le_of_eq hlen) (by simp)

/-! ## Claim C3 — the single-artifact invariant -/

/-- C3: `clean_card`, run after every successful store, keeps exactly the
glob match with the most recent filesystem creation time (the first such on
ties, as Python `max` picks) and deletes every other card file of the uid;
consequently any nonempty sequence of completed `get_card` calls for an
existing named user, starting from a consistent directory holding at most one
card file for the uid, leaves exactly one card file for the uid on disk. -/
theorem C3_single_artifact_invariant :
    (∀ (cards : List CardFile) (uid : String) (latest : CardFile),
      DirOk cards → maxByCtime (globCards cards uid) = some latest →
      latest ∈ globCards cards uid ∧
      (∀ g ∈ globCards cards uid, g.ctime ≤ latest.ctime) ∧
      clean_card cards uid =
        Except.ok (cards.filter (fun f => !(f.uid == uid) || f == latest)) ∧
      globCards (cards.filter (fun f => !(f.uid == uid) || f == latest)) uid =
        [latest]) ∧
    (∀ (client : Firestore) (uid : String) (user : Doc) (nm : String)
      (cards : List CardFile) (calls : List (ℤ × Bool)),
      client "user" uid = some user → user.lookup "name" = some nm →
      is_valid_uid uid = true → DirOk cards → (globCards cards uid).length ≤ 1 →
      calls ≠ [] →
      (globCards (run_calls client uid cards calls) uid).length = 1) := by
  constructor
  · intro cards uid latest hd hmax
    obtain ⟨hmem, hall⟩ := maxByCtime_spec hmax
    obtain ⟨hcleq, hglob⟩ := clean_card_glob hd hmax
    exact ⟨hmem, hall, hcleq, hglob⟩
  · intro client uid user nm cards calls hu hn hv hd hc hne
    exact run_calls_len hu hn hv calls cards hd hc hne

/-- C3 witness: two calls for user `abc` from an empty directory — the first
renders at time 100, the second re-renders at time 5000 — leave exactly one
card file. -/
theorem C3_single_artifact_invariant_witness :
    (globCards (run_calls
      (fun c u => if c = "user" ∧ u = "abc" then some [("name", "Abc")] else none)
      "abc" [] [(100, false), (5000, false)]) "abc").length = 1 :=
  C3_single_artifact_invariant.2
    (fun c u => if c = "user" ∧ u = "abc" then some [("name", "Abc")] else none)
    "abc" [("name", "Abc")] "Abc" [] [(100, false), (5000, false)]
    (by decide) (by decide) (by decide) (by simp [DirOk]) (by decide) (by decide)

/-! ## Claim C5 — the missing-user fallback -/

/-- C5 counterexample: for a uid whose user record is absent but whose stale
window has not passed on a leftover cached card, `get_card` serves the cached
card, not the default: the claim's unconditional "returns the static default
artifact reference" fails. -/
theorem C5_claim_counterexample :
    fetch_info (fun _ _ => none) "ghost" = Except.error FetchError.doesNotExist ∧
    (get_card (fun _ _ => none) 1200 [{ uid := "ghost", ts := 1000, ctime := 1000 }]
        "ghost" false).outcome = GetCardOutcome.ok (some "ghost.1000.png") ∧
    GetCardOutcome.ok (some "ghost.1000.png") ≠
      GetCardOutcome.ok (some "default.jpg") := by
  refine ⟨rfl, ?_, by decide⟩
  decide

/-- C5 (amended): `fetch_info` of a uid whose user record is absent always
fails with `DoesNotExistError`; and `get_card` for such a uid returns the
static `default.jpg` reference, with the directory unchanged (no per-user
caching of the default) and only the fetch performed, **provided** the call
reaches the fetch — i.e. the uid is valid, the lookup did not assert, and the
cache was missing or stale or a refresh was forced.  (A leftover fresh card
for the uid is served from the cache instead, without consulting the store.) -/
theorem C5_notfound_fallback_amended :
    ∀ (client : Firestore) (uid : String) (cards : List CardFile) (now : ℤ)
      (refresh : Bool) (found : Option CardFile),
      client "user" uid = none →
      fetch_info client uid = Except.error FetchError.doesNotExist ∧
      (is_valid_uid uid = true →
        find_card cards uid = Except.ok found →
        (refresh = true ∨ is_card_uptodate found (now - 3600) = false) →
        get_card client now cards uid refresh =
          { outcome := GetCardOutcome.ok (some "default.jpg"), cards := cards,
            effects := [Effect.fetch] }) := by
  intro client uid cards now refresh found hu
  have hfi : fetch_info client uid = Except.error FetchError.doesNotExist := by
    simp [fetch_info, hu]
  refine ⟨hfi, ?_⟩
  intro hv hfc hstale
  have hcond : (refresh || !is_card_uptodate found (now - 3600)) = true := by
    rcases hstale with h | h
    · simp [h]
    · simp [h]
  simp [get_card, hv, hfc, hcond, hfi]

/-- C5 witness: the empty store and empty cache at uid `bob`. -/
theorem C5_notfound_fallback_witness :
    fetch_info (fun _ _ => none) "bob" = Except.error FetchError.doesNotExist ∧
    get_card (fun _ _ => none) 0 [] "bob" false =
      { outcome := GetCardOutcome.ok (some "default.jpg"), cards := [],
        effects := [Effect.fetch] } := by
  have h := C5_notfound_fallback_amended (fun _ _ => none) "bob" [] 0 false none rfl
  exact ⟨h.1, h.2 (by decide) rfl (Or.inr rfl)⟩

/-! ## Claim C2 — cache freshness -/

/-- C2 counterexample: user `ghost` has a card stored at `t0 = 1000` (not
stale within the window, as the first conjunct shows at time 1200) but no
user record; at `t0 + 3601` the call does **not** invoke render and does not
produce a new artifact — it fetches, gets `DoesNotExistError` and returns the
default — so the claim's "a call after the freshness window invokes render
and produces a new artifact" fails at this input. -/
theorem C2_claim_counterexample :
    is_card_uptodate (some { uid := "ghost", ts := 1000, ctime := 1000 })
      (1200 - 3600) = true ∧
    (get_card (fun _ _ => none) 4601 [{ uid := "ghost", ts := 1000, ctime := 1000 }]
        "ghost" false).effects = [Effect.fetch] ∧
    Effect.render ∉
      (get_card (fun _ _ => none) 4601 [{ uid := "ghost", ts := 1000, ctime := 1000 }]
        "ghost" false).effects ∧
    (get_card (fun _ _ => none) 4601 [{ uid := "ghost", ts := 1000, ctime := 1000 }]
        "ghost" false).outcome = GetCardOutcome.ok (some "default.jpg") := by
  refine ⟨?_, ?_, ?_, ?_⟩ <;> decide

/-- C2 (amended): for a uid holding exactly one stored card, stored at `t0`
(timestamp and creation time `t0`): a `refresh=false` call at any time inside
the freshness window (`now < t0 + 3600`) returns that card's basename with no
fetch, no render and no filesystem change; and a call at `t0 + 3601` — after
the window — with the user record still present invokes fetch, render, write
and clean, returns the new basename `{uid}.{t0+3601}.png`, and leaves exactly
that new card file, distinct from the old one.  (For a user whose record has
meanwhile vanished the stale call falls back to the default instead of
rendering — the counterexample pins this restriction.) -/
theorem C2_cache_freshness_amended :
    ∀ (client : Firestore) (uid : String) (cards : List CardFile) (t0 : ℤ),
      is_valid_uid uid = true →
      globCards cards uid = [{ uid := uid, ts := t0, ctime := t0 }] →
      (∀ t1, t1 < t0 + 3600 →
        get_card client t1 cards uid false =
          { outcome := GetCardOutcome.ok
              (some (CardFile.fname { uid := uid, ts := t0, ctime := t0 })),
            cards := cards, effects := [] }) ∧
      (∀ t2 user nm, t2 = t0 + 3601 → DirOk cards →
        client "user" uid = some user → user.lookup "name" = some nm →
        (get_card client t2 cards uid false).effects =
          [Effect.fetch, Effect.render, Effect.write, Effect.clean] ∧
        (get_card client t2 cards uid false).outcome =
          GetCardOutcome.ok (some (CardFile.fname { uid := uid, ts := t2, ctime := t2 })) ∧
        globCards (get_card client t2 cards uid false).cards uid =
          [{ uid := uid, ts := t2, ctime := t2 }] ∧
        ({ uid := uid, ts := t2, ctime := t2 } : CardFile) ≠
          { uid := uid, ts := t0, ctime := t0 }) := by
  intro client uid cards t0 hv hglob
  have hfc : find_card cards uid = Except.ok (some { uid := uid, ts := t0, ctime := t0 }) := by
    simp [find_card, hglob]
  constructor
  · intro t1 ht1
    have hfresh : is_card_uptodate (some { uid := uid, ts := t0, ctime := t0 })
        (t1 - 3600) = true := by
      simp only [is_card_uptodate, gt_iff_lt, decide_eq_true_eq]
      omega
    simp [get_card, hv, hfc, hfresh]
  · intro t2 user nm ht2 hd hu hn
    have hstale : is_card_uptodate (some { uid := uid, ts := t0, ctime := t0 })
        (t2 - 3600) = false := by
      simp only [is_card_uptodate, gt_iff_lt, decide_eq_false_iff_not, not_lt]
      omega
    have hfi := fetch_info_ok hu hn
    have hglob1 : globCards (write_card cards { uid := uid, ts := t2, ctime := t2 }) uid =
        [{ uid := uid, ts := t2, ctime := t2 }, { uid := uid, ts := t0, ctime := t0 }] := by
      unfold write_card globCards
      rw [List.filter_cons_of_pos (by simp), List.filter_comm]
      have : List.filter (fun f => f.uid == uid) cards =
          [{ uid := uid, ts := t0, ctime := t0 }] := hglob
      rw [this, List.filter_cons_of_pos (by simp; omega), List.filter_nil]
    have hmax : maxByCtime
        (globCards (write_card cards { uid := uid, ts := t2, ctime := t2 }) uid) =
        some { uid := uid, ts := t2, ctime := t2 } := by
      rw [hglob1]
      simp only [maxByCtime, List.foldl_cons, List.foldl_nil]
      rw [if_neg (by simp; omega)]
    have hd1 : DirOk (write_card cards { uid := uid, ts := t2, ctime := t2 }) :=
      dirOk_write hd _
    obtain ⟨hcleq, hglob2⟩ := clean_card_glob hd1 hmax
    have hrun : get_card client t2 cards uid false =
        { outcome := GetCardOutcome.ok
            (some (CardFile.fname { uid := uid, ts := t2, ctime := t2 })),
          cards := (write_card cards { uid := uid, ts := t2, ctime := t2 }).filter
            (fun f => !(f.uid == uid) || f == { uid := uid, ts := t2, ctime := t2 }),
          effects := [Effect.fetch, Effect.render, Effect.write, Effect.clean] } := by
      simp [get_card, hv, hfc, hstale, hfi, hcleq]
    rw [hrun]
    refine ⟨rfl, rfl, hglob2, ?_⟩
    simp
    omega

/-- C2 witness: user `abc` with a card stored at 1000: a call at 4599 is a
pure cache hit; a call at 4601 re-renders. -/
theorem C2_cache_freshness_witness :
    get_card (fun c u => if c = "user" ∧ u = "abc" then some [("name", "Abc")] else none)
        4599 [{ uid := "abc", ts := 1000, ctime := 1000 }] "abc" false =
      { outcome := GetCardOutcome.ok
          (some (CardFile.fname { uid := "abc", ts := 1000, ctime := 1000 })),
        cards := [{ uid := "abc", ts := 1000, ctime := 1000 }], effects := [] } ∧
    (get_card (fun c u => if c = "user" ∧ u = "abc" then some [("name", "Abc")] else none)
        4601 [{ uid := "abc", ts := 1000, ctime := 1000 }] "abc" false).effects =
      [Effect.fetch, Effect.render, Effect.write, Effect.clean] := by
  have h := C2_cache_freshness_amended
    (fun c u => if c = "user" ∧ u = "abc" then some [("name", "Abc")] else none)
    "abc" [{ uid := "abc", ts := 1000, ctime := 1000 }] 1000 (by decide) (by decide)
  exact ⟨h.1 4599 (by omega),
    (h.2 4601 [("name", "Abc")] "Abc" (by omega) (by simp [DirOk]) (by decide) (by decide)).1⟩
